import Mathlib

/-!
Shallow embedding of the `derp-network` crate (a DERP-style relay client):
the frame codec, the handshake state machine (`ProtocolState`), the network
engine (`NetworkState`), the transport close/reconnect handler and the
Ethernet shim (`VmNetwork`), translated from
`src/crates/derp-network/src/{protocol,network,vm_network,crypto,error}.rs`.

Bytes are `Nat` values below 256; byte buffers are `List Nat`.  Machine
integers are `Nat` with an explicit `% 2 ^ w` wherever the source performs a
narrowing cast or a wrapping shift.  External collaborators (the WebSocket
transport, `bincode` serialization, AES-GCM encryption, DEFLATE compression)
enter as explicit function parameters, so every theorem quantifies over them;
the one exception is `decompress_to_vec`, a concrete model of the external
raw-DEFLATE decoder, used only to evaluate the codec on concrete inputs.
-/

/-- Error enumeration from `error.rs` (`DerpError`). -/
inductive DerpError where
  | InvalidState (msg : String)
  | InvalidProtocol (msg : String)
  | WebSocketError (msg : String)
  | CryptoError (msg : String)
  | SerializationError (msg : String)
  deriving DecidableEq, Repr

/-- The `Display` rendering of `DerpError` from `error.rs`. -/
def DerpError.display : DerpError → String
  | .InvalidState msg => "Invalid state: " ++ msg
  | .InvalidProtocol msg => "Protocol error: " ++ msg
  | .WebSocketError msg => "WebSocket error: " ++ msg
  | .CryptoError msg => "Cryptography error: " ++ msg
  | .SerializationError msg => "Serialization error: " ++ msg

/-- Frame-type enumeration from `protocol.rs` (`FrameType`), wire codes 1–7. -/
inductive FrameType where
  | ServerKey
  | ServerInfo
  | ClientInfo
  | Ping
  | Pong
  | Send
  | RecvFromPeer
  deriving DecidableEq, Repr

/-- The discriminant of a `FrameType` (`frame_type as u8` in `encode_frame`). -/
def FrameType.toByte : FrameType → Nat
  | .ServerKey => 1
  | .ServerInfo => 2
  | .ClientInfo => 3
  | .Ping => 4
  | .Pong => 5
  | .Send => 6
  | .RecvFromPeer => 7

/-- `TryFrom<u8> for FrameType` from `protocol.rs`. -/
def FrameType.fromByte (value : Nat) : Except DerpError FrameType :=
  match value with
  | 1 => .ok .ServerKey
  | 2 => .ok .ServerInfo
  | 3 => .ok .ClientInfo
  | 4 => .ok .Ping
  | 5 => .ok .Pong
  | 6 => .ok .Send
  | 7 => .ok .RecvFromPeer
  | _ => .error (.InvalidProtocol ("Invalid frame type: " ++ toString value))

/-- Handshake states from `protocol.rs` (`HandshakeState`). -/
inductive HandshakeState where
  | Initial
  | AwaitingServerKey
  | AwaitingServerInfo
  | Complete
  | Failed (reason : String)
  deriving DecidableEq, Repr

/-- `ClientInfo` record from `protocol.rs`. -/
structure ClientInfo where
  version : String
  client_id : String
  supported_features : List String
  max_packet_size : Nat
  deriving DecidableEq, Repr

/-- `ServerInfo` record from `protocol.rs`. -/
structure ServerInfo where
  version : String
  server_id : String
  supported_versions : List String
  supported_features : List String
  max_packet_size : Nat
  keepalive_interval : Nat
  deriving DecidableEq, Repr

/-- `CryptoState` from `crypto.rs` lines 12–15: it holds exactly an AES-256-GCM
cipher (represented by its 256-bit key) and a 256-bit HMAC key.  The source
declares no session-key field and no `derive_session_key` operation. -/
structure CryptoState where
  cipher_key : List Nat
  hmac_key : List Nat
  deriving DecidableEq, Repr

/-- `ProtocolState` from `protocol.rs`.  `last_ping_time`
(`Option<std::time::Instant>`) is modelled as an optional timestamp in
abstract time units. -/
structure ProtocolState where
  handshake_state : HandshakeState
  client_info : Option ClientInfo
  server_info : Option ServerInfo
  last_ping_time : Option Nat
  supported_features : List String
  compression_enabled : Bool
  deriving DecidableEq, Repr

/-- `ProtocolState::new` from `protocol.rs`. -/
def ProtocolState.new : ProtocolState where
  handshake_state := .Initial
  client_info := none
  server_info := none
  last_ping_time := none
  supported_features := ["compression", "encryption", "ipv6"]
  compression_enabled := false

/-- `ProtocolState::is_connected`. -/
def ProtocolState.is_connected (s : ProtocolState) : Bool :=
  match s.handshake_state with
  | .Complete => true
  | _ => false

/-- Big-endian bytes of `n as u32` (`(n as u32).to_be_bytes()` in
`encode_frame`): the value is first truncated modulo `2 ^ 32`. -/
def u32be (n : Nat) : List Nat :=
  [n % 2 ^ 32 / 2 ^ 24, n % 2 ^ 32 / 2 ^ 16 % 256, n % 2 ^ 32 / 2 ^ 8 % 256,
    n % 2 ^ 32 % 256]

/-- `u32::from_be_bytes([a, b, c, d])`. -/
def beU32 (a b c d : Nat) : Nat :=
  ((a * 256 + b) * 256 + c) * 256 + d

/-- `ProtocolState::encode_frame` from `protocol.rs`.  `compress` stands for
the external `miniz_oxide::deflate::compress_to_vec(payload, 6)`. -/
def ProtocolState.encode_frame (compress : List Nat → List Nat)
    (s : ProtocolState) (frame_type : FrameType) (payload : List Nat) :
    List Nat :=
  let compressed_payload :=
    if s.compression_enabled = true ∧ 64 < payload.length then compress payload
    else payload
  frame_type.toByte :: (u32be compressed_payload.length ++ compressed_payload)

/-- `ProtocolState::decode_frame` from `protocol.rs`.  `inflate` stands for
the external `miniz_oxide::inflate::decompress_to_vec`, `none` meaning the
inflate failed. -/
def ProtocolState.decode_frame (inflate : List Nat → Option (List Nat))
    (data : List Nat) : Except DerpError (FrameType × List Nat) :=
  if data.length < 5 then .error (.InvalidProtocol "Frame too short")
  else
    match FrameType.fromByte (data.getD 0 0) with
    | .error e => .error e
    | .ok frame_type =>
      let payload_len :=
        beU32 (data.getD 1 0) (data.getD 2 0) (data.getD 3 0) (data.getD 4 0)
      if data.length < payload_len + 5 then
        .error (.InvalidProtocol "Incomplete frame")
      else
        let payload := (data.drop 5).take payload_len
        let decompressed :=
          if 2 < payload.length ∧ frame_type ≠ .Ping ∧ frame_type ≠ .Pong then
            (inflate payload).getD payload
          else payload
        .ok (frame_type, decompressed)

/-- `ProtocolState::start_handshake` from `protocol.rs`.  `ser` stands for
`bincode::serialize` on `ClientInfo` (total: the bincode encoder does not
fail on this record type), `version` for the compile-time constant
`env!("CARGO_PKG_VERSION")` and `clientId` for the freshly drawn
`Uuid::new_v4().to_string()`. -/
def ProtocolState.start_handshake (compress : List Nat → List Nat)
    (ser : ClientInfo → List Nat) (version clientId : String)
    (s : ProtocolState) : Except DerpError (List Nat) × ProtocolState :=
  if s.handshake_state = .Initial then
    let s1 := { s with handshake_state := .AwaitingServerKey }
    let ci : ClientInfo :=
      { version := version, client_id := clientId,
        supported_features := s.supported_features, max_packet_size := 16384 }
    let s2 := { s1 with client_info := some ci }
    (.ok (s2.encode_frame compress .ClientInfo (ser ci)), s2)
  else (.error (.InvalidState "Handshake already started"), s)

/-- `ProtocolState::handle_server_key` from `protocol.rs`. -/
def ProtocolState.handle_server_key (s : ProtocolState) (payload : List Nat) :
    Except DerpError (List Nat) × ProtocolState :=
  if s.handshake_state = .AwaitingServerKey then
    if payload.length = 32 then
      (.ok [], { s with handshake_state := .AwaitingServerInfo })
    else (.error (.InvalidProtocol "Invalid server key length"), s)
  else (.error (.InvalidState "Unexpected server key"), s)

/-- The `Debug` rendering of a `Vec<String>` used in the incompatible-version
error message of `handle_server_info`. -/
def debugStringList (l : List String) : String :=
  "[" ++ String.intercalate ", " (l.map (fun v => "\"" ++ v ++ "\"")) ++ "]"

/-- `ProtocolState::handle_server_info` from `protocol.rs`.  `deser` stands
for `bincode::deserialize::<ServerInfo>`, returning the decoder's error
string on failure; `version` for `env!("CARGO_PKG_VERSION")`. -/
def ProtocolState.handle_server_info
    (deser : List Nat → Except String ServerInfo) (version : String)
    (s : ProtocolState) (payload : List Nat) :
    Except DerpError (List Nat) × ProtocolState :=
  if s.handshake_state = .AwaitingServerInfo then
    match deser payload with
    | .error e => (.error (.InvalidProtocol ("Invalid server info: " ++ e)), s)
    | .ok server_info =>
      if server_info.supported_versions.contains version = true then
        let common_features := server_info.supported_features.filter
          (fun f => s.supported_features.contains f)
        if common_features.isEmpty = true then
          (.error (.InvalidProtocol
            "No compatible features between client and server"), s)
        else
          let s1 := { s with
            compression_enabled := common_features.any (fun f => f == "compression") }
          let s2 := { s1 with server_info := some server_info }
          (.ok [], { s2 with handshake_state := .Complete })
      else
        (.error (.InvalidProtocol
          ("Incompatible server version. Server supports: "
            ++ debugStringList server_info.supported_versions)), s)
  else (.error (.InvalidState "Unexpected server info"), s)

/-- `ProtocolState::handle_ping` from `protocol.rs`: it records the ping time
and answers with an encoded empty `Pong` frame; it is total (its return type
is `Vec<u8>`, not `DerpResult`) and consults no state other than
`compression_enabled` inside `encode_frame`. -/
def ProtocolState.handle_ping (compress : List Nat → List Nat) (now : Nat)
    (s : ProtocolState) : List Nat × ProtocolState :=
  let s1 := { s with last_ping_time := some now }
  (s1.encode_frame compress .Pong [], s1)

/-- `NetworkStats` from `network.rs`: four `u64` counters and the `u32`
`reconnect_attempts`.  Additions on the `u64` counters are kept exact: the
guarded increments of the source cannot reach `2 ^ 64` in any execution. -/
structure NetworkStats where
  bytes_received : Nat
  bytes_sent : Nat
  packets_received : Nat
  packets_sent : Nat
  reconnect_attempts : Nat
  deriving DecidableEq, Repr

/-- `NetworkStats::default()` (the derived `Default`: all counters zero). -/
def NetworkStats.default : NetworkStats where
  bytes_received := 0
  bytes_sent := 0
  packets_received := 0
  packets_sent := 0
  reconnect_attempts := 0

/-- `MAX_RECONNECT_ATTEMPTS` from `network.rs`. -/
def MAX_RECONNECT_ATTEMPTS : Nat := 5

/-- `INITIAL_RECONNECT_DELAY_MS` from `network.rs`. -/
def INITIAL_RECONNECT_DELAY_MS : Nat := 1000

/-- `NetworkState` from `network.rs`.  The `Option<WebSocket>` handle is
modelled by its presence (`websocket : Bool`); the crypto state is carried
unchanged. -/
structure NetworkState where
  stats : NetworkStats
  websocket : Bool
  crypto_state : CryptoState
  protocol : ProtocolState
  url : Option String
  reconnect_delay_ms : Nat
  deriving DecidableEq, Repr

/-- `NetworkState::send_raw` from `network.rs`.  `wsSend` stands for the
external `WebSocket::send_with_u8_array`, returning the JS error text on
failure. -/
def NetworkState.send_raw (wsSend : List Nat → Except String Unit)
    (st : NetworkState) (data : List Nat) : Except DerpError Unit :=
  if st.websocket = true then
    match wsSend data with
    | .ok _ => .ok ()
    | .error e => .error (.WebSocketError ("Failed to send data: " ++ e))
  else .error (.InvalidState "WebSocket not initialized")

/-- `NetworkState::send_packet` from `network.rs`.  `encr` stands for
`CryptoState::encrypt` (nondeterministic through its fresh nonce, hence a
parameter), `wsSend` for the transport send, `compress` for the DEFLATE
compressor used by `encode_frame`. -/
def NetworkState.send_packet (encr : List Nat → Except DerpError (List Nat))
    (wsSend : List Nat → Except String Unit) (compress : List Nat → List Nat)
    (st : NetworkState) (data : List Nat) :
    Except DerpError Unit × NetworkState :=
  if st.protocol.is_connected = false then
    (.error (.InvalidState "Not connected"), st)
  else
    match encr data with
    | .error e => (.error e, st)
    | .ok encrypted =>
      let frame := st.protocol.encode_frame compress .Send encrypted
      match st.send_raw wsSend frame with
      | .error e => (.error e, st)
      | .ok _ =>
        (.ok (), { st with stats := { st.stats with
          bytes_sent := st.stats.bytes_sent + data.length,
          packets_sent := st.stats.packets_sent + 1 } })

/-- Iterated `send_packet`: runs the calls in order and returns the final
state when every call succeeded (harness for the stats-monotonicity claim). -/
def NetworkState.send_all (encr : List Nat → Except DerpError (List Nat))
    (wsSend : List Nat → Except String Unit) (compress : List Nat → List Nat)
    (st : NetworkState) : List (List Nat) → Option NetworkState
  | [] => some st
  | p :: ps =>
    match st.send_packet encr wsSend compress p with
    | (.ok _, st1) => st1.send_all encr wsSend compress ps
    | (.error _, _) => none

/-- The close-event handler installed by `connect_with_retry` in `network.rs`
(lines 112–133).  It mutates only the stats; the scheduled reopen is
reported as `some delay_ms`.  The `u32` shift `1 << attempts` and the `u32`
product are taken modulo `2 ^ 32`. -/
def close_callback (reconnect_delay : Nat) (stats : NetworkStats) :
    NetworkStats × Option Nat :=
  if stats.reconnect_attempts < MAX_RECONNECT_ATTEMPTS then
    let a := stats.reconnect_attempts + 1
    ({ stats with reconnect_attempts := a },
      some (reconnect_delay * (2 ^ a % 2 ^ 32) % 2 ^ 32))
  else (stats, none)

/-- Iterated close events: applies `close_callback` to `n` successive close
events and collects every scheduled reopen delay, in order. -/
def close_events (reconnect_delay : Nat) : Nat → NetworkStats →
    NetworkStats × List Nat
  | 0, stats => (stats, [])
  | n + 1, stats =>
    let r := close_callback reconnect_delay stats
    let rest := close_events reconnect_delay n r.1
    (rest.1, match r.2 with | some d => d :: rest.2 | none => rest.2)

/-- `VmNetwork` from `vm_network.rs`: the local MAC (6 bytes) and the MTU. -/
structure VmNetwork where
  mac_address : List Nat
  mtu : Nat
  deriving DecidableEq, Repr

/-- `VmNetwork::send_packet` from `vm_network.rs`.  `engineSend` stands for
`NetworkState::send_packet` on the shim's shared engine; its `DerpError` is
rendered through `Display` into the returned JS error string, exactly as the
source maps it.  `.ok ()` with `engineSend` not consulted models the silent
drop. -/
def VmNetwork.send_packet (engineSend : List Nat → Except DerpError Unit)
    (v : VmNetwork) (data : List Nat) : Except String Unit :=
  if data.length < 14 then .error "Invalid ethernet frame"
  else
    let dst_mac := data.take 6
    if dst_mac ≠ v.mac_address ∧ dst_mac ≠ List.replicate 6 0xFF then .ok ()
    else
      let ethertype := (data.getD 12 0) * 256 + data.getD 13 0
      if ethertype = 0x0800 ∨ ethertype = 0x0806 then
        match engineSend (data.drop 14) with
        | .ok _ => .ok ()
        | .error e => .error e.display
      else .ok ()

/-- The eight bits of one byte as booleans, lowest bit first, which is the
order in which DEFLATE consumes them. -/
def bitsOfByte (b : Nat) : List Bool :=
  [b.testBit 0, b.testBit 1, b.testBit 2, b.testBit 3,
    b.testBit 4, b.testBit 5, b.testBit 6, b.testBit 7]

/-- A byte buffer viewed as a DEFLATE bit stream. -/
def bitstream (data : List Nat) : List Bool :=
  (data.map bitsOfByte).flatten

/-- Consume `n` stream bits and assemble them as an integer, first bit in
the lowest position (how DEFLATE packs numeric fields). -/
def takeLowBits (n : Nat) (bits : List Bool) : Option (Nat × List Bool) :=
  if bits.length < n then none
  else
    some ((bits.take n).foldr (fun b v => 2 * v + (if b then 1 else 0)) 0,
      bits.drop n)

/-- Consume `n` further stream bits into the partial Huffman codeword
`acc`, first bit in the highest position (how DEFLATE packs codewords). -/
def pushCodeBits (n : Nat) (acc : Nat) (bits : List Bool) :
    Option (Nat × List Bool) :=
  if bits.length < n then none
  else
    some ((bits.take n).foldl (fun a b => 2 * a + (if b then 1 else 0)) acc,
      bits.drop n)

/-- One symbol of the fixed literal/length code of RFC 1951 §3.2.6.  The
canonical code assigns 7-bit codewords 0–23 to symbols 256–279, 8-bit
codewords 48–191 to symbols 0–143, 8-bit codewords 192–199 to symbols
280–287, and 9-bit codewords 400–511 to symbols 144–255. -/
def fixedLitSym (bits : List Bool) : Option (Nat × List Bool) := do
  let (c7, r) ← pushCodeBits 7 0 bits
  if c7 ≤ 23 then some (256 + c7, r)
  else do
    let (c8, r) ← pushCodeBits 1 c7 r
    if 48 ≤ c8 ∧ c8 ≤ 191 then some (c8 - 48, r)
    else if 192 ≤ c8 ∧ c8 ≤ 199 then some (280 + (c8 - 192), r)
    else do
      let (c9, r) ← pushCodeBits 1 c8 r
      if 400 ≤ c9 then some (144 + (c9 - 400), r) else none

/-- Base match length and extra-bit count of length symbol `257 + i`
(RFC 1951 §3.2.5). -/
def matchLenInfo : Nat → Option (Nat × Nat)
  | 0 => some (3, 0)
  | 1 => some (4, 0)
  | 2 => some (5, 0)
  | 3 => some (6, 0)
  | 4 => some (7, 0)
  | 5 => some (8, 0)
  | 6 => some (9, 0)
  | 7 => some (10, 0)
  | 8 => some (11, 1)
  | 9 => some (13, 1)
  | 10 => some (15, 1)
  | 11 => some (17, 1)
  | 12 => some (19, 2)
  | 13 => some (23, 2)
  | 14 => some (27, 2)
  | 15 => some (31, 2)
  | 16 => some (35, 3)
  | 17 => some (43, 3)
  | 18 => some (51, 3)
  | 19 => some (59, 3)
  | 20 => some (67, 4)
  | 21 => some (83, 4)
  | 22 => some (99, 4)
  | 23 => some (115, 4)
  | 24 => some (131, 5)
  | 25 => some (163, 5)
  | 26 => some (195, 5)
  | 27 => some (227, 5)
  | 28 => some (258, 0)
  | _ => none

/-- Base match distance and extra-bit count of distance symbol `i`
(RFC 1951 §3.2.5). -/
def matchDistInfo : Nat → Option (Nat × Nat)
  | 0 => some (1, 0)
  | 1 => some (2, 0)
  | 2 => some (3, 0)
  | 3 => some (4, 0)
  | 4 => some (5, 1)
  | 5 => some (7, 1)
  | 6 => some (9, 2)
  | 7 => some (13, 2)
  | 8 => some (17, 3)
  | 9 => some (25, 3)
  | 10 => some (33, 4)
  | 11 => some (49, 4)
  | 12 => some (65, 5)
  | 13 => some (97, 5)
  | 14 => some (129, 6)
  | 15 => some (193, 6)
  | 16 => some (257, 7)
  | 17 => some (385, 7)
  | 18 => some (513, 8)
  | 19 => some (769, 8)
  | 20 => some (1025, 9)
  | 21 => some (1537, 9)
  | 22 => some (2049, 10)
  | 23 => some (3073, 10)
  | 24 => some (4097, 11)
  | 25 => some (6145, 11)
  | 26 => some (8193, 12)
  | 27 => some (12289, 12)
  | 28 => some (16385, 13)
  | 29 => some (24577, 13)
  | _ => none

/-- LZ77 back-reference copy: append `len` output bytes, each read `dist`
positions back (an overlapping copy re-reads bytes it just appended). -/
def backCopy : Nat → Nat → List Nat → Option (List Nat)
  | 0, _, out => some out
  | n + 1, dist, out =>
    if dist = 0 ∨ out.length < dist then none
    else backCopy n dist (out ++ [out.getD (out.length - dist) 0])

/-- Run the symbols of one fixed-Huffman block up to the end-of-block
symbol; `fuel` bounds the symbol count (each symbol costs at least 7
bits). -/
def runFixedBlock : Nat → List Bool → List Nat →
    Option (List Nat × List Bool)
  | 0, _, _ => none
  | fuel + 1, bits, out => do
    let (sym, r) ← fixedLitSym bits
    if sym < 256 then runFixedBlock fuel r (out ++ [sym])
    else if sym = 256 then some (out, r)
    else do
      let li ← matchLenInfo (sym - 257)
      let (ev, r) ← takeLowBits li.2 r
      let (dc, r) ← pushCodeBits 5 0 r
      let di ← matchDistInfo dc
      let (dv, r) ← takeLowBits di.2 r
      let out1 ← backCopy (li.1 + ev) (di.1 + dv) out
      runFixedBlock fuel r out1

/-- Copy `n` aligned literal bytes of a stored block to the output. -/
def copyStored : Nat → List Bool → List Nat →
    Option (List Nat × List Bool)
  | 0, bits, out => some (out, bits)
  | n + 1, bits, out => do
    let (b, r) ← takeLowBits 8 bits
    copyStored n r (out ++ [b])

/-- Decode successive DEFLATE blocks until one is flagged final.  The input
bit stream came from whole bytes, so the distance to the next byte boundary
is the remaining length modulo 8.  Dynamic-Huffman blocks (type 2) are not
modelled and yield `none`. -/
def inflateLoop : Nat → List Bool → List Nat → Option (List Nat)
  | 0, _, _ => none
  | fuel + 1, bits, out => do
    let (bfinal, r) ← takeLowBits 1 bits
    let (btype, r) ← takeLowBits 2 r
    if btype = 0 then do
      let r := r.drop (r.length % 8)
      let (len, r) ← takeLowBits 16 r
      let (nlen, r) ← takeLowBits 16 r
      if len + nlen = 65535 then do
        let (out1, r) ← copyStored len r out
        if bfinal = 1 then some out1 else inflateLoop fuel r out1
      else none
    else if btype = 1 then do
      let (out1, r) ← runFixedBlock (bits.length + 1) r out
      if bfinal = 1 then some out1 else inflateLoop fuel r out1
    else none

/-- Modelled from the spec: raw DEFLATE (RFC 1951) decompression as performed
by the external dependency `miniz_oxide::inflate::decompress_to_vec`, which
is not part of this repository.  Stored and fixed-Huffman blocks are
modelled; dynamic-Huffman blocks yield `none` (the model is only ever
evaluated on inputs that avoid them).  As in `miniz_oxide`, decoding stops
at the final block and ignores any trailing bytes. -/
def decompress_to_vec (data : List Nat) : Option (List Nat) :=
  inflateLoop (8 * data.length + 1) (bitstream data) []

/-- Observer: is a protocol result an `InvalidProtocol` error? -/
def resultIsInvalidProtocol : Except DerpError (List Nat) → Bool
  | .error (.InvalidProtocol _) => true
  | _ => false

/-- Observer: is a handshake state the `Failed` state? -/
def HandshakeState.isFailed : HandshakeState → Bool
  | .Failed _ => true
  | _ => false

deriving instance DecidableEq for Except

/-- A compatible `ServerInfo` used for concrete handshake runs. -/
def c2ServerInfo : ServerInfo where
  version := "1.0.0"
  server_id := "server-1"
  supported_versions := ["1.0.0"]
  supported_features := ["compression", "encryption", "ipv6"]
  max_packet_size := 16384
  keepalive_interval := 30

/-- A `ServerInfo` advertising only an incompatible protocol version. -/
def c3ServerInfo : ServerInfo where
  version := "1.0.0"
  server_id := "server-1"
  supported_versions := ["0.0.0"]
  supported_features := ["compression", "encryption", "ipv6"]
  max_packet_size := 16384
  keepalive_interval := 30

/-- A protocol state waiting for the server info frame. -/
def c3State : ProtocolState :=
  { ProtocolState.new with handshake_state := .AwaitingServerInfo }

/-- A network state whose handshake has not started. -/
def c4State : NetworkState where
  stats := NetworkStats.default
  websocket := true
  crypto_state := ⟨List.replicate 32 0, List.replicate 32 0⟩
  protocol := ProtocolState.new
  url := none
  reconnect_delay_ms := INITIAL_RECONNECT_DELAY_MS

/-- A connected network state with fresh statistics. -/
def c5Start : NetworkState where
  stats := NetworkStats.default
  websocket := true
  crypto_state := ⟨List.replicate 32 0, List.replicate 32 0⟩
  protocol := { ProtocolState.new with handshake_state := .Complete }
  url := some "wss://relay.example"
  reconnect_delay_ms := INITIAL_RECONNECT_DELAY_MS

/-- A protocol state waiting for the server key frame. -/
def c6State : ProtocolState :=
  { ProtocolState.new with handshake_state := .AwaitingServerKey }

/-- An Ethernet shim with a concrete local MAC. -/
def c8Shim : VmNetwork where
  mac_address := [0x52, 0x54, 0x00, 0x12, 0x34, 0x56]
  mtu := 1500

/-- Statistics whose reconnect counter has reached the maximum. -/
def c9Stats5 : NetworkStats where
  bytes_received := 0
  bytes_sent := 0
  packets_received := 0
  packets_sent := 0
  reconnect_attempts := 5

/-- Decoding the discriminant byte recovers the frame type. -/
theorem fromByte_toByte (ft : FrameType) :
    FrameType.fromByte ft.toByte = .ok ft := by
  cases ft <;> rfl

/-- Decoding a well-formed raw frame: header checks pass, the length field
round-trips, and the payload goes through the inflate sniffing step. -/
theorem decode_encode_raw (inflate : List Nat → Option (List Nat))
    (ft : FrameType) (p : List Nat) (hp : p.length < 2 ^ 32) :
    ProtocolState.decode_frame inflate (ft.toByte :: (u32be p.length ++ p)) =
      .ok (ft, if 2 < p.length ∧ ft ≠ .Ping ∧ ft ≠ .Pong
        then (inflate p).getD p else p) := by
  have hmod : p.length % 2 ^ 32 = p.length := Nat.mod_eq_of_lt hp
  have hbe : beU32 (p.length / 2 ^ 24) (p.length / 2 ^ 16 % 256)
      (p.length / 2 ^ 8 % 256) (p.length % 256) = p.length := by
    unfold beU32; omega
  unfold ProtocolState.decode_frame u32be
  rw [hmod]
  simp only [List.cons_append, List.nil_append, List.getD_cons_zero,
    List.getD_cons_succ, List.length_cons, fromByte_toByte, hbe]
  have h5 : ¬ (p.length + 1 + 1 + 1 + 1 + 1 < 5) := by omega
  have h5' : ¬ (p.length + 1 + 1 + 1 + 1 + 1 < p.length + 5) := by omega
  rw [if_neg h5, if_neg h5']
  have hdrop : (ft.toByte :: (p.length / 2 ^ 24 :: (p.length / 2 ^ 16 % 256 ::
      (p.length / 2 ^ 8 % 256 :: (p.length % 256 :: p))))).drop 5 = p := rfl
  simp only [hdrop, List.take_length]

/-- `List.any` with an equality test is `List.contains`. -/
theorem any_beq_eq_contains (l : List String) (a : String) :
    (l.any fun f => f == a) = l.contains a := by
  induction l with
  | nil => rfl
  | cons x xs ih =>
    simp only [List.any_cons, List.contains_cons, ih]
    congr 1
    simp [beq_iff_eq, eq_comm]

/-- Claim C1 (amended): with compression disabled, decoding an encoded frame
returns the original pair for every payload of length at most `2 ^ 32 − 1`
that the inflate sniffing step leaves alone — that is, whenever the inflate
fails on the payload, or the payload has at most 2 bytes, or the frame type
is Ping or Pong.  The amendment is forced by the decoder's transparent
inflate fallback: a raw payload that is itself a valid DEFLATE stream is
silently transformed (see the counterexample). -/
theorem spec_c1_roundtrip (compress : List Nat → List Nat)
    (inflate : List Nat → Option (List Nat)) (s : ProtocolState)
    (ft : FrameType) (p : List Nat)
    (hc : s.compression_enabled = false) (hlen : p.length ≤ 2 ^ 32 - 1)
    (h : inflate p = none ∨ p.length ≤ 2 ∨ ft = .Ping ∨ ft = .Pong) :
    ProtocolState.decode_frame inflate (s.encode_frame compress ft p) =
      .ok (ft, p) := by
  have hp : p.length < 2 ^ 32 := by omega
  have henc : s.encode_frame compress ft p =
      ft.toByte :: (u32be p.length ++ p) := by
    unfold ProtocolState.encode_frame
    simp [hc]
  rw [henc, decode_encode_raw inflate ft p hp]
  have : (if 2 < p.length ∧ ft ≠ FrameType.Ping ∧ ft ≠ FrameType.Pong
      then (inflate p).getD p else p) = p := by
    rcases h with h | h | h | h
    · split
      · rw [h]; rfl
      · rfl
    · rw [if_neg]; intro hx; omega
    · rw [if_neg]; subst h; intro hx; exact hx.2.1 rfl
    · rw [if_neg]; subst h; intro hx; exact hx.2.2 rfl
  rw [this]

/-- Claim C1, counterexample: the payload `[0x4B, 0x04, 0x00]` is the raw
DEFLATE compression of the single byte `0x61`, so with compression disabled
the frame encoding this payload decodes to `(Send, [0x61])`, not to the
original pair — the round-trip claimed for every payload fails here. -/
theorem spec_c1_counterexample :
    ProtocolState.decode_frame decompress_to_vec
      (ProtocolState.encode_frame (fun q => q) ProtocolState.new .Send
        [75, 4, 0]) = .ok (.Send, [97]) ∧
    ((FrameType.Send, [97]) : FrameType × List Nat) ≠ (.Send, [75, 4, 0]) := by
  decide

/-- Claim C1, witness: the bytes `[1, 2, 3]` are not a valid DEFLATE stream,
so the amended round-trip applies and returns them unchanged. -/
theorem spec_c1_roundtrip_witness :
    decompress_to_vec [1, 2, 3] = none ∧
    ProtocolState.decode_frame decompress_to_vec
      (ProtocolState.encode_frame (fun q => q) ProtocolState.new .Send
        [1, 2, 3]) = .ok (.Send, [1, 2, 3]) :=
  ⟨by decide, spec_c1_roundtrip (fun q => q) decompress_to_vec
    ProtocolState.new .Send [1, 2, 3] rfl (by decide) (Or.inl (by decide))⟩

/-- Claim C2: from a fresh `ProtocolState`, `start_handshake` succeeds with
an encoded ClientInfo frame and moves to `AwaitingServerKey`; a 32-byte
server key then moves to `AwaitingServerInfo`; a server info whose supported
versions contain the client version and whose features meet the client's
yields `Complete`, makes `is_connected` true, and sets
`compression_enabled` exactly when `"compression"` is in the feature
intersection. -/
theorem spec_c2_handshake (compress : List Nat → List Nat)
    (ser : ClientInfo → List Nat) (deser : List Nat → Except String ServerInfo)
    (version clientId : String) (key info : List Nat) (si : ServerInfo)
    (hkey : key.length = 32) (hd : deser info = .ok si)
    (hv : si.supported_versions.contains version = true)
    (hf : si.supported_features.filter
      (fun f => ProtocolState.new.supported_features.contains f) ≠ []) :
    (ProtocolState.new.start_handshake compress ser version clientId).1 =
      .ok ((ProtocolState.new.start_handshake compress ser version
        clientId).2.encode_frame compress .ClientInfo (ser
        { version := version, client_id := clientId,
          supported_features := ProtocolState.new.supported_features,
          max_packet_size := 16384 })) ∧
    (ProtocolState.new.start_handshake compress ser version
      clientId).2.handshake_state = .AwaitingServerKey ∧
    ((ProtocolState.new.start_handshake compress ser version
      clientId).2.handle_server_key key).1 = .ok [] ∧
    ((ProtocolState.new.start_handshake compress ser version
      clientId).2.handle_server_key key).2.handshake_state =
      .AwaitingServerInfo ∧
    (((ProtocolState.new.start_handshake compress ser version
      clientId).2.handle_server_key key).2.handle_server_info deser version
      info).1 = .ok [] ∧
    (((ProtocolState.new.start_handshake compress ser version
      clientId).2.handle_server_key key).2.handle_server_info deser version
      info).2.handshake_state = .Complete ∧
    (((ProtocolState.new.start_handshake compress ser version
      clientId).2.handle_server_key key).2.handle_server_info deser version
      info).2.is_connected = true ∧
    (((ProtocolState.new.start_handshake compress ser version
      clientId).2.handle_server_key key).2.handle_server_info deser version
      info).2.compression_enabled = (si.supported_features.filter
      (fun f => ProtocolState.new.supported_features.contains f)).contains
      "compression" := by
  have hmem : ¬ (∀ a ∈ si.supported_features,
      ¬a = "compression" ∧ ¬a = "encryption" ∧ ¬a = "ipv6") := by
    intro hall
    apply hf
    rw [List.filter_eq_nil_iff]
    intro a ha
    rcases hall a ha with ⟨h1, h2, h3⟩
    simp [ProtocolState.new, h1, h2, h3]
  simp only [ProtocolState.start_handshake, ProtocolState.handle_server_key,
    ProtocolState.handle_server_info, ProtocolState.new,
    ProtocolState.is_connected, hd, hkey, hv]
  simp [hmem]
  generalize si.supported_features = l
  induction l with
  | nil => rfl
  | cons x xs ih =>
    have hx' : ("compression" = x) = (x = "compression") := by
      apply propext; constructor <;> (intro h; exact h.symm)
    by_cases hx : x = "compression" <;>
      simp [List.any_cons, ih, hx, hx', beq_iff_eq]

/-- Claim C2, witness: a concrete full handshake against `c2ServerInfo`
reaches `Complete` with compression enabled. -/
theorem spec_c2_handshake_witness :
    (((ProtocolState.new.start_handshake (fun q => q) (fun _ => [])
      "1.0.0" "client").2.handle_server_key
      (List.replicate 32 0)).2.handle_server_info
      (fun _ => .ok c2ServerInfo) "1.0.0" []).2.handshake_state =
      .Complete ∧
    (((ProtocolState.new.start_handshake (fun q => q) (fun _ => [])
      "1.0.0" "client").2.handle_server_key
      (List.replicate 32 0)).2.handle_server_info
      (fun _ => .ok c2ServerInfo) "1.0.0" []).2.compression_enabled =
      true := by
  have h := spec_c2_handshake (fun q => q) (fun _ => [])
    (fun _ => .ok c2ServerInfo) "1.0.0" "client" (List.replicate 32 0) []
    c2ServerInfo (by decide) rfl (by decide) (by decide)
  refine ⟨h.2.2.2.2.2.1, ?_⟩
  rw [h.2.2.2.2.2.2.2]
  decide

/-- Claim C3 (amended): in `AwaitingServerInfo`, a well-formed server info
whose supported versions miss the client version, or whose feature set has
empty intersection with the client features, makes `handle_server_info`
return an `InvalidProtocol` error and leaves the state unchanged — still
`AwaitingServerInfo`, not `Failed`: the source never constructs the
`Failed` state. -/
theorem spec_c3_mismatch (deser : List Nat → Except String ServerInfo)
    (version : String) (s : ProtocolState) (payload : List Nat)
    (si : ServerInfo)
    (hs : s.handshake_state = .AwaitingServerInfo)
    (hd : deser payload = .ok si)
    (h : si.supported_versions.contains version = false ∨
      si.supported_features.filter
        (fun f => s.supported_features.contains f) = []) :
    resultIsInvalidProtocol (s.handle_server_info deser version payload).1
      = true ∧
    (s.handle_server_info deser version payload).2 = s := by
  unfold ProtocolState.handle_server_info
  rw [hs]
  simp only [if_pos rfl, hd]
  rcases h with h | h
  · rw [h]
    simp [resultIsInvalidProtocol]
  · by_cases hv : si.supported_versions.contains version = true
    · rw [hv, h]
      simp [resultIsInvalidProtocol]
    · rw [Bool.not_eq_true] at hv
      rw [hv]
      simp [resultIsInvalidProtocol]

/-- Claim C3, counterexample: with a server advertising only version
`"0.0.0"`, `handle_server_info` returns `InvalidProtocol`, yet the state
does not transition to `Failed` as claimed — it stays
`AwaitingServerInfo`. -/
theorem spec_c3_counterexample :
    resultIsInvalidProtocol (c3State.handle_server_info
      (fun _ => .ok c3ServerInfo) "1.0.0" []).1 = true ∧
    HandshakeState.isFailed (c3State.handle_server_info
      (fun _ => .ok c3ServerInfo) "1.0.0" []).2.handshake_state = false ∧
    (c3State.handle_server_info (fun _ => .ok c3ServerInfo) "1.0.0"
      []).2.handshake_state = .AwaitingServerInfo := by
  decide

/-- Claim C3, witness: the amended statement instantiated at the concrete
incompatible-version run. -/
theorem spec_c3_mismatch_witness :
    resultIsInvalidProtocol (c3State.handle_server_info
      (fun _ => .ok c3ServerInfo) "1.0.0" []).1 = true ∧
    (c3State.handle_server_info (fun _ => .ok c3ServerInfo) "1.0.0" []).2 =
      c3State :=
  spec_c3_mismatch (fun _ => .ok c3ServerInfo) "1.0.0" c3State [] c3ServerInfo
    rfl rfl (Or.inl (by decide))

/-- Claim C4: while the handshake is not `Complete`, `send_packet` returns
`InvalidState "Not connected"` and leaves the whole network state — in
particular every statistics counter — unchanged. -/
theorem spec_c4_reject (encr : List Nat → Except DerpError (List Nat))
    (wsSend : List Nat → Except String Unit) (compress : List Nat → List Nat)
    (st : NetworkState) (data : List Nat)
    (h : st.protocol.handshake_state ≠ .Complete) :
    st.send_packet encr wsSend compress data =
      (.error (.InvalidState "Not connected"), st) := by
  have hc : st.protocol.is_connected = false := by
    unfold ProtocolState.is_connected
    cases hcs : st.protocol.handshake_state
    case Complete => exact absurd hcs h
    all_goals rfl
  unfold NetworkState.send_packet
  rw [hc]
  simp

/-- Claim C4, witness: sending on a network state whose handshake has not
started is rejected without touching the state. -/
theorem spec_c4_reject_witness :
    c4State.send_packet (fun d => .ok d) (fun _ => .ok ()) (fun q => q)
      [1, 2] = (.error (.InvalidState "Not connected"), c4State) :=
  spec_c4_reject (fun d => .ok d) (fun _ => .ok ()) (fun q => q) c4State
    [1, 2] (by decide)

/-- One successful `send_packet` adds the plaintext length to `bytes_sent`
and one to `packets_sent`. -/
theorem send_packet_ok_stats (encr : List Nat → Except DerpError (List Nat))
    (wsSend : List Nat → Except String Unit) (compress : List Nat → List Nat)
    (st st' : NetworkState) (p : List Nat)
    (h : st.send_packet encr wsSend compress p = (.ok (), st')) :
    st'.stats.bytes_sent = st.stats.bytes_sent + p.length ∧
    st'.stats.packets_sent = st.stats.packets_sent + 1 := by
  unfold NetworkState.send_packet at h
  split at h
  · simp at h
  · split at h
    · simp at h
    · dsimp only at h
      split at h
      · simp at h
      · rw [Prod.mk.injEq] at h
        rw [← h.2]
        simp

/-- A successful sequence of sends adds the summed plaintext lengths and the
call count to the counters. -/
theorem send_all_stats (encr : List Nat → Except DerpError (List Nat))
    (wsSend : List Nat → Except String Unit) (compress : List Nat → List Nat)
    (ps : List (List Nat)) : ∀ st st' : NetworkState,
    st.send_all encr wsSend compress ps = some st' →
    st'.stats.bytes_sent = st.stats.bytes_sent + (ps.map List.length).sum ∧
    st'.stats.packets_sent = st.stats.packets_sent + ps.length := by
  induction ps with
  | nil =>
    intro st st' h
    unfold NetworkState.send_all at h
    injection h with h
    rw [← h]
    simp
  | cons p ps ih =>
    intro st st' h
    unfold NetworkState.send_all at h
    split at h
    case h_1 st1 hstep =>
      have h1 := send_packet_ok_stats encr wsSend compress st st1 p hstep
      have h2 := ih st1 st' h
      simp only [List.map_cons, List.sum_cons, List.length_cons]
      omega
    case h_2 => exact absurd h (by simp)

/-- Claim C5: after any sequence of successful `send_packet` calls starting
from fresh statistics, `bytes_sent` is the sum of the plaintext payload
lengths (independent of the encryption and encoding, over which the theorem
quantifies) and `packets_sent` is the number of calls. -/
theorem spec_c5_stats (encr : List Nat → Except DerpError (List Nat))
    (wsSend : List Nat → Except String Unit) (compress : List Nat → List Nat)
    (st st' : NetworkState) (ps : List (List Nat))
    (h0 : st.stats = NetworkStats.default)
    (h : st.send_all encr wsSend compress ps = some st') :
    st'.stats.bytes_sent = (ps.map List.length).sum ∧
    st'.stats.packets_sent = ps.length := by
  have hh := send_all_stats encr wsSend compress ps st st' h
  rw [h0] at hh
  simpa [NetworkStats.default] using hh

/-- Claim C5, witness: two concrete sends of 3 and 2 bytes end with
`bytes_sent = 5` and `packets_sent = 2`. -/
theorem spec_c5_stats_witness :
    ((c5Start.send_all (fun d => .ok d) (fun _ => .ok ()) (fun q => q)
      [[1, 2, 3], [4, 5]]).getD c5Start).stats.bytes_sent = 5 ∧
    ((c5Start.send_all (fun d => .ok d) (fun _ => .ok ()) (fun q => q)
      [[1, 2, 3], [4, 5]]).getD c5Start).stats.packets_sent = 2 := by
  obtain ⟨st', hst'⟩ : ∃ st', c5Start.send_all (fun d => .ok d)
      (fun _ => .ok ()) (fun q => q) [[1, 2, 3], [4, 5]] = some st' :=
    ⟨_, by rfl⟩
  have h := spec_c5_stats (fun d => .ok d) (fun _ => .ok ()) (fun q => q)
    c5Start st' [[1, 2, 3], [4, 5]] rfl hst'
  rw [hst']
  simpa using h

/-- Claim C6 (amended): `CryptoState` holds exactly a 256-bit AEAD key and a
256-bit MAC key — no optional derived session key — and a successful
`handle_server_key` on a 32-byte payload only moves the handshake state to
`AwaitingServerInfo`: no field beyond `handshake_state` changes and no key
derivation takes place (the source defines no `derive_session_key`). -/
theorem spec_c6_server_key (s : ProtocolState) (payload : List Nat)
    (hs : s.handshake_state = .AwaitingServerKey) (hp : payload.length = 32) :
    s.handle_server_key payload =
      (.ok [], { s with handshake_state := .AwaitingServerInfo }) := by
  unfold ProtocolState.handle_server_key
  rw [hs, hp]
  simp

/-- Claim C6, counterexample: after a successful `handle_server_key` on 32
zero bytes, the resulting state is the old state with only
`handshake_state` replaced — nothing resembling a derived session key is
populated anywhere, against the claim; the `CryptoState` of `crypto.rs` has
no field to hold one. -/
theorem spec_c6_counterexample :
    c6State.handle_server_key (List.replicate 32 0) =
      (.ok [], { c6State with handshake_state := .AwaitingServerInfo }) ∧
    ({ c6State with handshake_state := .AwaitingServerInfo }).server_info =
      none ∧
    ({ c6State with handshake_state := .AwaitingServerInfo }).client_info =
      c6State.client_info := by
  decide

/-- Claim C6, witness: the amended statement at a concrete 32-byte key. -/
theorem spec_c6_server_key_witness :
    c6State.handle_server_key (List.replicate 32 1) =
      (.ok [], { c6State with handshake_state := .AwaitingServerInfo }) :=
  spec_c6_server_key c6State (List.replicate 32 1) rfl (by decide)

/-- Claim C7 (amended): `handle_ping` never returns an error in any handshake
state — its return type carries no error case.  In every state it records
the ping time and emits the empty-payload Pong frame `[5, 0, 0, 0, 0]`,
leaving the handshake state (and every other field) unchanged. -/
theorem spec_c7_ping (compress : List Nat → List Nat) (now : Nat)
    (s : ProtocolState) :
    s.handle_ping compress now =
      ([5, 0, 0, 0, 0], { s with last_ping_time := some now }) := by
  unfold ProtocolState.handle_ping ProtocolState.encode_frame
  simp [u32be, FrameType.toByte]

/-- Claim C7, counterexample: invoked in the `Initial` state — not
`Complete` — `handle_ping` does not produce the claimed `InvalidState`
error: it succeeds and emits the Pong frame. -/
theorem spec_c7_counterexample :
    ProtocolState.new.handle_ping (fun q => q) 7 =
      ([5, 0, 0, 0, 0], { ProtocolState.new with last_ping_time := some 7 }) ∧
    ProtocolState.new.handshake_state ≠ .Complete := by
  decide

/-- Claim C8: the Ethernet shim rejects frames shorter than 14 bytes with an
error; silently accepts (without forwarding) frames whose destination MAC is
neither local nor broadcast or whose EtherType is neither IPv4 nor ARP; and
otherwise forwards exactly bytes 14 onward to the engine's `send_packet`,
whose result it returns. -/
theorem spec_c8_shim (engineSend : List Nat → Except DerpError Unit)
    (v : VmNetwork) (data : List Nat) :
    (data.length < 14 →
      v.send_packet engineSend data = .error "Invalid ethernet frame") ∧
    (14 ≤ data.length →
      ((data.take 6 ≠ v.mac_address ∧ data.take 6 ≠ List.replicate 6 0xFF) ∨
        ((data.getD 12 0) * 256 + data.getD 13 0 ≠ 0x0800 ∧
          (data.getD 12 0) * 256 + data.getD 13 0 ≠ 0x0806)) →
      v.send_packet engineSend data = .ok ()) ∧
    (14 ≤ data.length →
      (data.take 6 = v.mac_address ∨ data.take 6 = List.replicate 6 0xFF) →
      ((data.getD 12 0) * 256 + data.getD 13 0 = 0x0800 ∨
        (data.getD 12 0) * 256 + data.getD 13 0 = 0x0806) →
      v.send_packet engineSend data =
        (match engineSend (data.drop 14) with
          | .ok _ => .ok ()
          | .error e => .error e.display)) := by
  refine ⟨?_, ?_, ?_⟩
  · intro h
    unfold VmNetwork.send_packet
    rw [if_pos h]
  · intro hlen h
    unfold VmNetwork.send_packet
    rw [if_neg (by omega)]
    rcases h with h | h
    · rw [if_pos h]
    · by_cases hmac : data.take 6 ≠ v.mac_address ∧
        data.take 6 ≠ List.replicate 6 0xFF
      · rw [if_pos hmac]
      · rw [if_neg hmac, if_neg (by omega)]
  · intro hlen hmac het
    unfold VmNetwork.send_packet
    rw [if_neg (by omega), if_neg (by tauto), if_pos het]

/-- Claim C8, witness: a 16-byte IPv4 frame addressed to the shim's MAC is
forwarded, and the engine receives exactly the two bytes after the Ethernet
header (the engine stub accepts only `[9, 9]`). -/
theorem spec_c8_shim_witness :
    c8Shim.send_packet
      (fun p => if p = [9, 9] then .ok ()
        else .error (.InvalidState "unexpected payload"))
      ([0x52, 0x54, 0x00, 0x12, 0x34, 0x56] ++ [1, 2, 3, 4, 5, 6] ++
        [0x08, 0x00] ++ [9, 9]) = .ok () := by
  rw [(spec_c8_shim (fun p => if p = [9, 9] then .ok ()
    else .error (.InvalidState "unexpected payload")) c8Shim
    ([0x52, 0x54, 0x00, 0x12, 0x34, 0x56] ++ [1, 2, 3, 4, 5, 6] ++
      [0x08, 0x00] ++ [9, 9])).2.2 (by decide) (Or.inl (by decide))
    (Or.inl (by decide))]
  decide

/-- Claim C9: a close event with `reconnect_attempts < 5` increments the
counter and schedules exactly one reopen after
`INITIAL_RECONNECT_DELAY_MS × 2 ^ reconnect_attempts` milliseconds (the
post-increment value: 2000 ms after the first close); once the counter has
reached 5, any number of further close events schedules nothing and leaves
the counter at 5. -/
theorem spec_c9_backoff (stats : NetworkStats) :
    (stats.reconnect_attempts < MAX_RECONNECT_ATTEMPTS →
      close_callback INITIAL_RECONNECT_DELAY_MS stats =
        ({ stats with reconnect_attempts := stats.reconnect_attempts + 1 },
          some (INITIAL_RECONNECT_DELAY_MS *
            2 ^ (stats.reconnect_attempts + 1)))) ∧
    (MAX_RECONNECT_ATTEMPTS ≤ stats.reconnect_attempts →
      ∀ n, close_events INITIAL_RECONNECT_DELAY_MS n stats = (stats, [])) := by
  constructor
  · intro h
    unfold close_callback
    rw [if_pos h]
    dsimp only
    unfold MAX_RECONNECT_ATTEMPTS at h
    unfold INITIAL_RECONNECT_DELAY_MS
    have h2 : (2 : Nat) ^ (stats.reconnect_attempts + 1) ≤ 2 ^ 5 :=
      Nat.pow_le_pow_right (by omega) (by omega)
    have h3 : (2 : Nat) ^ 5 = 32 := by norm_num
    have h32 : (2 : Nat) ^ 32 = 4294967296 := by norm_num
    have hA : (2 : Nat) ^ (stats.reconnect_attempts + 1) % 2 ^ 32 =
        2 ^ (stats.reconnect_attempts + 1) := Nat.mod_eq_of_lt (by omega)
    rw [hA, Nat.mod_eq_of_lt (by omega)]
  · intro h n
    induction n with
    | zero => rfl
    | succ k ih =>
      have hcb : close_callback INITIAL_RECONNECT_DELAY_MS stats =
          (stats, none) := by
        unfold close_callback
        rw [if_neg (by omega)]
      unfold close_events
      rw [hcb]
      dsimp only
      rw [ih]

/-- Claim C9, witness: the first close schedules a reopen at 2000 ms with the
counter at 1, and three further closes at a counter of 5 schedule nothing. -/
theorem spec_c9_backoff_witness :
    close_callback INITIAL_RECONNECT_DELAY_MS NetworkStats.default =
      ({ NetworkStats.default with reconnect_attempts := 1 }, some 2000) ∧
    close_events INITIAL_RECONNECT_DELAY_MS 3 c9Stats5 = (c9Stats5, []) := by
  constructor
  · have h := (spec_c9_backoff NetworkStats.default).1 (by decide)
    rw [h]
    decide
  · exact (spec_c9_backoff c9Stats5).2 (by decide) 3

/-- Claim C10: whenever `handle_server_info` returns an error — wrong state,
undecodable payload, missing client version, or empty feature intersection —
the protocol state is returned exactly as it was, so after a mismatch the
state is still `AwaitingServerInfo` and the call can be retried. -/
theorem spec_c10_error_preserves (deser : List Nat → Except String ServerInfo)
    (version : String) (s : ProtocolState) (payload : List Nat)
    (e : DerpError)
    (h : (s.handle_server_info deser version payload).1 = .error e) :
    (s.handle_server_info deser version payload).2 = s := by
  unfold ProtocolState.handle_server_info at h ⊢
  by_cases h1 : s.handshake_state = .AwaitingServerInfo
  · rw [if_pos h1] at h ⊢
    cases hds : deser payload with
    | error e2 => rfl
    | ok si =>
      rw [hds] at h
      dsimp only at h ⊢
      by_cases h2 : si.supported_versions.contains version = true
      · rw [if_pos h2] at h ⊢
        by_cases h3 : (si.supported_features.filter
            (fun f => s.supported_features.contains f)).isEmpty = true
        · rw [if_pos h3]
        · rw [if_neg h3] at h
          simp at h
      · rw [if_neg h2]
  · rw [if_neg h1]

/-- Claim C10, witness: an error in the `Initial` state (wrong state) leaves
the fresh protocol state untouched. -/
theorem spec_c10_error_preserves_witness :
    (ProtocolState.new.handle_server_info (fun _ => .error "bad") "1.0.0"
      []).2 = ProtocolState.new :=
  spec_c10_error_preserves (fun _ => .error "bad") "1.0.0" ProtocolState.new
    [] (.InvalidState "Unexpected server info") (by decide)
